import Mathlib

/-!
Verification of the rule-based HTML conversion core in `scripts/convert.py`
(class `HTMLConverter`).

Strings are modelled as `List Char` (Python `str` over its code points; all
inputs considered here are ASCII, for which the model of `str.lower`,
`str.strip`, `\s` and `\d` below agrees with Python).  Each Python regex used
by the source is deterministic (the only quantifiers are `[^>]*`, `[^}]+`,
lazy `.*?` / `[\s\S]*?` followed by a literal, `\d+`, `\s*`, `\s+` and an
optional `(?:\.\d+)?`, none of which admits more than one viable parse), so
every `re.finditer` / `re.search` / `re.sub` call is embedded as an explicit
left-to-right scan that attempts the pattern at each position and, on a
match, continues after it (non-overlapping).  Scans that restart on a
shortened remainder take an explicit fuel argument; the public wrappers pass
the input length, which is always sufficient because every step consumes at
least one character.  File loading (`load_json`, `load_template`,
`load_component`) is an external boundary; templates and configuration enter
the model as parameters.  Configuration metadata is abstracted to the only
field the core reads: each platform key maps to an optional display name
(`None` models a metadata dict with no `'name'` key; reading it through
`metadata['name']` in `detect_platform` is a `KeyError`, modelled by
`Except`).
-/

namespace HtmlConv

/-- Model of Python `str.lower` restricted to ASCII letters (written as an
explicit table so that case facts about abstract characters reduce by case
split). -/
def asciiLower (c : Char) : Char :=
  if c = 'A' then 'a' else if c = 'B' then 'b' else if c = 'C' then 'c'
  else if c = 'D' then 'd' else if c = 'E' then 'e' else if c = 'F' then 'f'
  else if c = 'G' then 'g' else if c = 'H' then 'h' else if c = 'I' then 'i'
  else if c = 'J' then 'j' else if c = 'K' then 'k' else if c = 'L' then 'l'
  else if c = 'M' then 'm' else if c = 'N' then 'n' else if c = 'O' then 'o'
  else if c = 'P' then 'p' else if c = 'Q' then 'q' else if c = 'R' then 'r'
  else if c = 'S' then 's' else if c = 'T' then 't' else if c = 'U' then 'u'
  else if c = 'V' then 'v' else if c = 'W' then 'w' else if c = 'X' then 'x'
  else if c = 'Y' then 'y' else if c = 'Z' then 'z' else c

/-- Model of Python `str.upper` restricted to ASCII letters. -/
def asciiUpper (c : Char) : Char :=
  if c = 'a' then 'A' else if c = 'b' then 'B' else if c = 'c' then 'C'
  else if c = 'd' then 'D' else if c = 'e' then 'E' else if c = 'f' then 'F'
  else if c = 'g' then 'G' else if c = 'h' then 'H' else if c = 'i' then 'I'
  else if c = 'j' then 'J' else if c = 'k' then 'K' else if c = 'l' then 'L'
  else if c = 'm' then 'M' else if c = 'n' then 'N' else if c = 'o' then 'O'
  else if c = 'p' then 'P' else if c = 'q' then 'Q' else if c = 'r' then 'R'
  else if c = 's' then 'S' else if c = 't' then 'T' else if c = 'u' then 'U'
  else if c = 'v' then 'V' else if c = 'w' then 'W' else if c = 'x' then 'X'
  else if c = 'y' then 'Y' else if c = 'z' then 'Z' else c

/-- Python `str.lower` on a whole string. -/
def lowerStr (s : List Char) : List Char := s.map asciiLower

/-- ASCII whitespace recognized by Python `str.strip` and by regex `\s`. -/
def isPyWs (c : Char) : Bool :=
  c = ' ' || c = '\t' || c = '\n' || c = '\r' || c = '\x0b' || c = '\x0c'

/-- ASCII decimal digit, regex `\d` on ASCII input. -/
def isAsciiDigit (c : Char) : Bool := '0' ≤ c && c ≤ '9'

/-- ASCII letter (used by the `str.title` model). -/
def isAsciiAlpha (c : Char) : Bool := ('a' ≤ c && c ≤ 'z') || ('A' ≤ c && c ≤ 'Z')

/-- Python `str.strip()`: drop leading and trailing whitespace. -/
def pyStrip (s : List Char) : List Char :=
  (((s.dropWhile isPyWs).reverse.dropWhile isPyWs)).reverse

/-- Does the string start with the given pattern (exact characters)? -/
def begins : List Char → List Char → Bool
  | [], _ => true
  | _ :: _, [] => false
  | p :: ps, c :: cs => p = c && begins ps cs

/-- Does the string start with the given pattern, comparing the string
case-insensitively?  The pattern is given pre-lowered. -/
def ciBegins : List Char → List Char → Bool
  | [], _ => true
  | _ :: _, [] => false
  | p :: ps, c :: cs => p = asciiLower c && ciBegins ps cs

/-- Python substring test `needle in hay` (case-sensitive). -/
def containsSub (needle : List Char) : List Char → Bool
  | [] => begins needle []
  | c :: cs => begins needle (c :: cs) || containsSub needle cs

/-- Python `str.title` on ASCII: uppercase each letter that follows a
non-letter, lowercase every other letter. -/
def titleCaseGo (prevAlpha : Bool) : List Char → List Char
  | [] => []
  | c :: cs =>
    (if isAsciiAlpha c then (if prevAlpha then asciiLower c else asciiUpper c) else c)
      :: titleCaseGo (isAsciiAlpha c) cs

/-- Python `str.title`. -/
def titleCase (s : List Char) : List Char := titleCaseGo false s

/-- Python `'sep'.join` with a single-character separator. -/
def joinWith (sep : Char) : List (List Char) → List Char
  | [] => []
  | [x] => x
  | x :: xs => x ++ sep :: joinWith sep xs

/-- Remainder after the first `'>'`, if any (regex `[^>]*>` consumes up to
and including the first `'>'`). -/
def findGt : List Char → Option (List Char)
  | [] => none
  | '>' :: cs => some cs
  | _ :: cs => findGt cs

/-- Lazy capture `(.*?)close` (resp. `([\s\S]*?)close`): the shortest text up
to the first case-insensitive occurrence of the closing literal, returning
the capture and the remainder after the literal.  When `allowNL` is false
(pattern compiled without `re.DOTALL`), a newline before the close makes the
whole attempt fail. -/
def capTo (close : List Char) (allowNL : Bool) (s : List Char) :
    Option (List Char × List Char) :=
  if ciBegins close s then some ([], s.drop close.length)
  else
    match s with
    | [] => none
    | c :: cs =>
      if !allowNL && c = '\n' then none
      else (capTo close allowNL cs).map (fun p => (c :: p.1, p.2))

/-- Attempt of regex `<name[^>]*>(.*?)</name>` (IGNORECASE, optionally
DOTALL) at the head of `s`.  On success returns (whole match `group(0)`,
capture `group(1)`, remainder after the match). -/
def tagAt (name : List Char) (allowNL : Bool) (s : List Char) :
    Option (List Char × List Char × List Char) :=
  if ciBegins ('<' :: name) s then
    match findGt (s.drop (1 + name.length)) with
    | none => none
    | some afterGt =>
      match capTo ('<' :: '/' :: (name ++ ['>'])) allowNL afterGt with
      | none => none
      | some (cap, rest) => some (s.take (s.length - rest.length), cap, rest)
  else none

/-- Scan of `re.finditer` for `<name[^>]*>(.*?)</name>`: try the pattern at
every position, left to right, continuing after each match (non-overlapping).
Returns (start offset, `group(0)`, `group(1)`) per match. -/
def findTagsF (name : List Char) (allowNL : Bool) :
    Nat → Nat → List Char → List (Nat × List Char × List Char)
  | 0, _, _ => []
  | _ + 1, _, [] => []
  | n + 1, pos, c :: cs =>
    match tagAt name allowNL (c :: cs) with
    | some (g0, g1, rest) => (pos, g0, g1) :: findTagsF name allowNL n (pos + g0.length) rest
    | none => findTagsF name allowNL n (pos + 1) cs

/-- All matches of `<name[^>]*>(.*?)</name>` in `s`. -/
def findTagMatches (name : List Char) (allowNL : Bool) (s : List Char) :
    List (Nat × List Char × List Char) :=
  findTagsF name allowNL s.length 0 s

/-- Does the string start with the cell-closing pattern `</t[dh]>`
(case-insensitive)? -/
def cellCloseBegins : List Char → Bool
  | '<' :: '/' :: c :: d :: '>' :: _ =>
    asciiLower c = 't' && (asciiLower d = 'd' || asciiLower d = 'h')
  | _ => false

/-- Lazy capture up to the first `</t[dh]>`; the cell pattern is compiled
without DOTALL, so a newline in the capture fails the attempt. -/
def capToCell (s : List Char) : Option (List Char × List Char) :=
  if cellCloseBegins s then some ([], s.drop 5)
  else
    match s with
    | [] => none
    | c :: cs =>
      if c = '\n' then none
      else (capToCell cs).map (fun p => (c :: p.1, p.2))

/-- Attempt of regex `<t[dh][^>]*>(.*?)</t[dh]>` (IGNORECASE) at the head of
`s`: capture and remainder after the match. -/
def cellAt (s : List Char) : Option (List Char × List Char) :=
  match s with
  | '<' :: c :: d :: rest =>
    if asciiLower c = 't' && (asciiLower d = 'd' || asciiLower d = 'h') then
      match findGt rest with
      | none => none
      | some afterGt => capToCell afterGt
    else none
  | _ => none

/-- All captures of the cell regex in `s` (scan of `re.finditer`). -/
def findCellsF : Nat → List Char → List (List Char)
  | 0, _ => []
  | _ + 1, [] => []
  | n + 1, c :: cs =>
    match cellAt (c :: cs) with
    | some (cap, rest) => cap :: findCellsF n rest
    | none => findCellsF n cs

/-- All cell captures in `s`. -/
def findCells (s : List Char) : List (List Char) := findCellsF s.length s

/-- Attempt of regex `<li>(.*?)</li>` (IGNORECASE, no DOTALL) at the head of
`s`. -/
def liAt (s : List Char) : Option (List Char × List Char) :=
  if ciBegins ('<' :: 'l' :: 'i' :: '>' :: []) s then
    capTo ('<' :: '/' :: 'l' :: 'i' :: '>' :: []) false (s.drop 4)
  else none

/-- All captures of `<li>(.*?)</li>` in `s`. -/
def findLisF : Nat → List Char → List (List Char)
  | 0, _ => []
  | _ + 1, [] => []
  | n + 1, c :: cs =>
    match liAt (c :: cs) with
    | some (cap, rest) => cap :: findLisF n rest
    | none => findLisF n cs

/-- All `<li>` captures in `s`. -/
def findLis (s : List Char) : List (List Char) := findLisF s.length s

/-- Model of `re.sub(r'<[^>]+>', '', text)`: remove every tag-shaped span
(a `'<'`, at least one non-`'>'`, then the first `'>'`). -/
def stripTagsF : Nat → List Char → List Char
  | 0, s => s
  | _ + 1, [] => []
  | n + 1, x :: xs =>
    if x = '<' then
      match xs with
      | [] => ['<']
      | c :: cs =>
        if c = '>' then '<' :: stripTagsF n xs
        else
          match findGt cs with
          | some r => stripTagsF n r
          | none => '<' :: stripTagsF n xs
    else x :: stripTagsF n xs

/-- Tag removal `re.sub(r'<[^>]+>', '', text)`. -/
def stripTags (s : List Char) : List Char := stripTagsF s.length s

/-- The per-fragment cleanup the source applies to every captured text:
`re.sub(r'<[^>]+>', '', t).strip()`. -/
def cleanText (t : List Char) : List Char := pyStrip (stripTags t)

/-- Extracted heading record (`extract_headings` appends dicts with these
keys). -/
structure Heading where
  level : String
  text : List Char
  position : Nat
deriving DecidableEq, Repr

/-- Extracted table record (`extract_tables` appends dicts with these
keys; `columns` is Python `len(rows[0])`). -/
structure Table where
  rows : List (List (List Char))
  columns : Nat
  position : Nat
deriving DecidableEq, Repr

/-- Extracted rating: the two captured groups of the matched pattern.  The
source converts them with `float` / `int`; the captures themselves are kept
here (`float "7.5" = 7.5`, `int "10" = 10`). -/
structure Rating where
  rating_num : List Char
  rating_total : List Char
deriving DecidableEq, Repr

/-- Stable insertion of a heading into a position-sorted list (a later
element is placed after earlier elements with the same key, as Python's
stable `sorted`). -/
def insPos (h : Heading) : List Heading → List Heading
  | [] => [h]
  | y :: ys => if h.position < y.position then h :: y :: ys else y :: insPos h ys

/-- Python `sorted(headings, key=lambda x: x['position'])`. -/
def sortByPos (l : List Heading) : List Heading :=
  l.foldl (fun acc h => insPos h acc) []

/-- Matches of one heading level, as `Heading` records. -/
def headingsOf (level : String) (html : List Char) : List Heading :=
  (findTagMatches level.toList true html).map
    (fun m => ⟨level, cleanText m.2.2, m.1⟩)

/-- Source `extract_headings`: scan `<h1>`, `<h2>`, `<h3>` (IGNORECASE,
DOTALL), strip nested tags and whitespace from each capture, record start
offsets, and sort all records by position. -/
def extract_headings (html : List Char) : List Heading :=
  sortByPos (headingsOf "h1" html ++ headingsOf "h2" html ++ headingsOf "h3" html)

/-- Source `extract_paragraphs`: `<p[^>]*>(.*?)</p>` captures, cleaned, kept
when non-empty and longer than 10 characters. -/
def extract_paragraphs (html : List Char) : List (List Char) :=
  (findTagMatches ('p' :: []) true html).filterMap
    (fun m =>
      let t := cleanText m.2.2
      if t ≠ [] ∧ 10 < t.length then some t else none)

/-- The cleaned cell texts of one row capture (`cells` in the source's row
loop). -/
def cellsOf (rowCap : List Char) : List (List Char) :=
  (findCells rowCap).map cleanText

/-- The surviving rows of one table match (`rows` in the source's table
loop): each `<tr>` capture's cells, kept only when non-empty. -/
def tableRowsOf (g0 : List Char) : List (List (List Char)) :=
  (findTagMatches ('t' :: 'r' :: []) true g0).filterMap
    (fun rm => if cellsOf rm.2.2 = [] then none else some (cellsOf rm.2.2))

/-- Source `extract_tables`: for each `<table>` match, scan its `group(0)`
for `<tr>` rows, each row's capture for `<td>`/`<th>` cells; keep rows with
at least one cell and tables with at least one surviving row;
`columns = len(rows[0])`. -/
def extract_tables (html : List Char) : List Table :=
  (findTagMatches ('t' :: 'a' :: 'b' :: 'l' :: 'e' :: []) true html).filterMap
    (fun m =>
      if tableRowsOf m.2.1 = [] then none
      else some ⟨tableRowsOf m.2.1, ((tableRowsOf m.2.1).headD []).length, m.1⟩)

/-- Attempt of `<strong>LABEL:?</strong>[\s\S]*?<ul>([\s\S]*?)</ul>`
(IGNORECASE) at the head of `s`; the label is given pre-lowered.  Returns
the `<ul>` capture. -/
def blockAt (label : List Char) (s : List Char) : Option (List Char) :=
  if ciBegins (('<' :: 's' :: 't' :: 'r' :: 'o' :: 'n' :: 'g' :: '>' :: []) ++ label) s then
    let r := s.drop (8 + label.length)
    let afterLabel : Option (List Char) :=
      if ciBegins (':' :: '<' :: '/' :: 's' :: 't' :: 'r' :: 'o' :: 'n' :: 'g' :: '>' :: []) r
        then some (r.drop 10)
      else if ciBegins ('<' :: '/' :: 's' :: 't' :: 'r' :: 'o' :: 'n' :: 'g' :: '>' :: []) r
        then some (r.drop 9)
      else none
    match afterLabel with
    | none => none
    | some r2 =>
      match capTo ('<' :: 'u' :: 'l' :: '>' :: []) true r2 with
      | none => none
      | some (_, r3) =>
        match capTo ('<' :: '/' :: 'u' :: 'l' :: '>' :: []) true r3 with
        | none => none
        | some (cap, _) => some cap
  else none

/-- The `re.search` scan for the pros/cons block pattern: first position at
which the attempt succeeds. -/
def blockSearch (label : List Char) : List Char → Option (List Char)
  | [] => blockAt label []
  | c :: cs =>
    match blockAt label (c :: cs) with
    | some cap => some cap
    | none => blockSearch label cs

/-- Source `extract_pros_cons`: search independently for the `Pros` and
`Cons` block patterns; for each found block, take its cleaned `<li>`
captures; a missing block gives an empty list. -/
def extract_pros_cons (html : List Char) : List (List Char) × List (List Char) :=
  (match blockSearch ('p' :: 'r' :: 'o' :: 's' :: []) html with
    | none => []
    | some cap => (findLis cap).map cleanText,
   match blockSearch ('c' :: 'o' :: 'n' :: 's' :: []) html with
    | none => []
    | some cap => (findLis cap).map cleanText)

/-- Configuration view of `platform-metadata.json`: each platform key maps
to the optional `'name'` field of its metadata dict (the only field the core
reads; `none` models a dict without a `'name'` key). -/
abbrev Config := List (List Char × Option (List Char))

/-- Ordered-dict lookup (`d[k]` / `d.get(k)` on a dict with unique keys). -/
def lookupAssoc {α : Type} : List (List Char × α) → List Char → Option α
  | [], _ => none
  | (k, v) :: rest, key => if k = key then some v else lookupAssoc rest key

/-- Loop body of `detect_platform` over the configured platforms, given the
already-lowered document. -/
def detectGo (htmlLower : List Char) :
    List (List Char × Option (List Char)) → Except Unit (Option (List Char))
  | [] => .ok none
  | (_, none) :: _ => .error ()
  | (k, some name) :: rest =>
    if containsSub (lowerStr name) htmlLower || containsSub k htmlLower then .ok (some k)
    else detectGo htmlLower rest

/-- Source `detect_platform`: lower the document once, then scan the
configured platforms in insertion order; for each, read `metadata['name']`
(a `KeyError`, modelled as `Except.error`, when the dict has no name), and
return the first key whose lowered name or whose key occurs verbatim in the
lowered document. -/
def detect_platform (cfg : Config) (html : List Char) : Except Unit (Option (List Char)) :=
  detectGo (lowerStr html) cfg

/-- Source `detect_page_type`: keyword cascade over the lowered document and
the space-joined lowered heading texts; first rule wins, default
`casino-review`. -/
def detect_page_type (html : List Char) (headings : List Heading) : String :=
  let htmlLower := lowerStr html
  let headingText := joinWith ' ' (headings.map (fun h => lowerStr h.text))
  if containsSub "casino".toList htmlLower && containsSub "review".toList htmlLower then
    "casino-review"
  else if containsSub "sportsbook".toList htmlLower ||
      (containsSub "betting".toList htmlLower && containsSub "review".toList headingText) then
    "sportsbook-review"
  else if containsSub "best".toList headingText &&
      (containsSub "crypto".toList htmlLower || containsSub "comparison".toList htmlLower) then
    "crypto-comparison"
  else "casino-review"

/-- Parse `(\d+(?:\.\d+)?)` at the head of `s`: the greedy digit run, an
optional fraction taken only when a `'.'` is directly followed by a digit,
and the remainder.  (When the fraction is present the alternative without it
cannot complete either pattern, since `'.'` is neither `\s`, `/` nor part of
`out of`, so taking it greedily is exact.) -/
def numAt (s : List Char) : Option (List Char × List Char) :=
  let d1 := s.takeWhile isAsciiDigit
  if d1 = [] then none
  else
    match s.dropWhile isAsciiDigit with
    | '.' :: c :: r3 =>
      if isAsciiDigit c then
        some (d1 ++ '.' :: (c :: r3).takeWhile isAsciiDigit, (c :: r3).dropWhile isAsciiDigit)
      else some (d1, '.' :: c :: r3)
    | r => some (d1, r)

/-- Attempt of the first rating pattern `(\d+(?:\.\d+)?)\s*\/\s*(\d+)`
(case-sensitive, no flags) at the head of `s`. -/
def ratingAt1 (s : List Char) : Option Rating :=
  match numAt s with
  | none => none
  | some (num, r) =>
    match r.dropWhile isPyWs with
    | '/' :: r2 =>
      let d2 := (r2.dropWhile isPyWs).takeWhile isAsciiDigit
      if d2 = [] then none else some ⟨num, d2⟩
    | _ => none

/-- Attempt of the second rating pattern
`(\d+(?:\.\d+)?)\s+out of\s+(\d+)` (case-sensitive) at the head of `s`. -/
def ratingAt2 (s : List Char) : Option Rating :=
  match numAt s with
  | none => none
  | some (num, r) =>
    if r.takeWhile isPyWs = [] then none
    else
      let r1 := r.dropWhile isPyWs
      if begins ('o' :: 'u' :: 't' :: ' ' :: 'o' :: 'f' :: []) r1 then
        let r2 := r1.drop 6
        if r2.takeWhile isPyWs = [] then none
        else
          let d2 := (r2.dropWhile isPyWs).takeWhile isAsciiDigit
          if d2 = [] then none else some ⟨num, d2⟩
      else none

/-- The `re.search` scan: first position, left to right, at which the
attempt succeeds. -/
def search {α : Type} (f : List Char → Option α) : List Char → Option α
  | [] => f []
  | c :: cs =>
    match f (c :: cs) with
    | some r => some r
    | none => search f cs

/-- Source `extract_rating`: try the `/` pattern over the whole document
first, then the `out of` pattern; first success wins, else no rating. -/
def extract_rating (html : List Char) : Option Rating :=
  match search ratingAt1 html with
  | some r => some r
  | none => search ratingAt2 html

/-- Python `str.replace(old, new)` (all non-overlapping occurrences, left to
right), with fuel.  The source only ever replaces non-empty placeholder
tokens, so `old` is never empty here. -/
def replaceAllF (old new : List Char) : Nat → List Char → List Char
  | 0, s => s
  | _ + 1, [] => []
  | n + 1, c :: cs =>
    if begins old (c :: cs) then new ++ replaceAllF old new n ((c :: cs).drop old.length)
    else c :: replaceAllF old new n cs

/-- Python `s.replace(old, new)`. -/
def replaceAll (s old new : List Char) : List Char := replaceAllF old new s.length s

/-- The placeholder token for a key, Python `f'{{{{{key}}}}}'`, that is
`\x7b\x7b` ++ key ++ `\x7d\x7d`. -/
def placeholder (key : List Char) : List Char :=
  '\x7b' :: '\x7b' :: (key ++ ['\x7d', '\x7d'])

/-- The substitution loop of `render_template`: for each key/value pair in
order, replace every occurrence of the key's token by the value. -/
def substitute (tmpl : List Char) (data : List (List Char × List Char)) : List Char :=
  data.foldl (fun res kv => replaceAll res (placeholder kv.1) kv.2) tmpl

/-- Body of the token regex after `\x7b\x7b`: `[^\x7d]+\x7d\x7d` once at
least one non-`\x7d` character has been consumed. -/
def bodyRest : List Char → Option (List Char)
  | [] => none
  | c :: cs =>
    if c = '\x7d' then
      match cs with
      | '\x7d' :: cs2 => some cs2
      | _ => none
    else bodyRest cs

/-- Body of the token regex after `\x7b\x7b`: at least one non-`\x7d`
character, then `\x7d\x7d`; returns the remainder after the match. -/
def body : List Char → Option (List Char)
  | [] => none
  | c :: cs => if c = '\x7d' then none else bodyRest cs

/-- Attempt of the cleanup regex `\x7b\x7b[^\x7d]+\x7d\x7d` at the head of
`s`; returns the remainder after the match. -/
def tokenTail : List Char → Option (List Char)
  | '\x7b' :: '\x7b' :: rest => body rest
  | _ => none

/-- Cleanup scan `re.sub(r'\x7b\x7b[^\x7d]+\x7d\x7d', '', s)` with fuel:
delete each leftmost token match and continue after it. -/
def stripTokensF : Nat → List Char → List Char
  | 0, s => s
  | _ + 1, [] => []
  | n + 1, c :: cs =>
    match tokenTail (c :: cs) with
    | some rest => stripTokensF n rest
    | none => c :: stripTokensF n cs

/-- Cleanup pass removing remaining `\x7b\x7b...\x7d\x7d` tokens. -/
def stripTokens (s : List Char) : List Char := stripTokensF s.length s

/-- Does the string contain a `\x7b\x7b[^\x7d]+\x7d\x7d` token anywhere? -/
def hasTok : List Char → Bool
  | [] => false
  | c :: cs => (tokenTail (c :: cs)).isSome || hasTok cs

/-- Source `render_template`: substitute every provided placeholder, then
strip any remaining tokens. -/
def render_template (tmpl : List Char) (data : List (List Char × List Char)) : List Char :=
  stripTokens (substitute tmpl data)

/-- Highlight test of `build_table_html`:
`'<strong>' in str(row[1]) or 'free' in str(row[1]).lower()`. -/
def isHighlighted (cell : List Char) : Bool :=
  containsSub "<strong>".toList cell || containsSub "free".toList (lowerStr cell)

/-- The per-row f-string of `build_table_html` (exact text, including the
triple-quoted literal's indentation); `hl` selects the
` class="highlight"` attribute. -/
def mkRowHtml (c0 c1 : List Char) (hl : Bool) : List Char :=
  "            <tr>\n                <td>".toList ++ c0 ++
  "</td>\n                <td".toList ++
  (if hl then " class=\"highlight\"".toList else []) ++
  ('>' :: c1) ++ "</td>\n            </tr>".toList

/-- The row loop of `build_table_html`: rows with fewer than two cells are
skipped; each kept row renders its first two cells, highlighting the second
according to `isHighlighted`. -/
def buildTableRows : List (List (List Char)) → List (List Char)
  | [] => []
  | row :: rest =>
    match row with
    | c0 :: c1 :: _ => mkRowHtml c0 c1 (isHighlighted c1) :: buildTableRows rest
    | _ => buildTableRows rest

/-- Source `build_table_html` with the loaded component template as a
parameter: fill caption, headers and the joined rows. -/
def build_table_html (template : List Char) (t : Table) : List Char :=
  replaceAll
    (replaceAll
      (replaceAll
        (replaceAll template (placeholder "table_caption".toList) "Quick Facts".toList)
        (placeholder "col1_header".toList) "Attribute".toList)
      (placeholder "col2_header".toList) "Details".toList)
    (placeholder "table_rows".toList) (joinWith '\n' (buildTableRows t.rows))

/-- The CTA platform-name fallback of `build_cta_button`:
`self.platform_metadata.get(platform_key, {}).get('name', platform_key.title())`. -/
def ctaPlatformName (cfg : Config) (key : List Char) : List Char :=
  match lookupAssoc cfg key with
  | some (some n) => n
  | some none => titleCase key
  | none => titleCase key

/-- Source `build_cta_button` with the loaded component template as a
parameter: empty when the key has no affiliate link, else fill URL, link
text, accessibility label and the fixed compliance note. -/
def build_cta_button (affiliate : List (List Char × List Char)) (cfg : Config)
    (template : List Char) (key : List Char) : List Char :=
  match lookupAssoc affiliate key with
  | none => []
  | some url =>
    let name := ctaPlatformName cfg key
    replaceAll
      (replaceAll
        (replaceAll
          (replaceAll template (placeholder "cta_url".toList) url)
          (placeholder "cta_text".toList) ("Visit ".toList ++ name))
        (placeholder "aria_label".toList)
        ("Visit ".toList ++ name ++ " website (opens in new window)".toList))
      (placeholder "cta_note".toList) "18+ Only • BeGambleAware.org • T&Cs Apply".toList

/-- The platform display-name resolution inside `convert`:
`platform_metadata.get(platform_key, {}) if platform_key else {}` followed by
`.get('name', 'Platform')`. -/
def resolvePlatformName (cfg : Config) (key : Option (List Char)) : List Char :=
  match key with
  | none => "Platform".toList
  | some k =>
    match lookupAssoc cfg k with
    | some (some n) => n
    | some none => "Platform".toList
    | none => "Platform".toList

/-- Match test on one configuration entry as `detect_platform` performs it
(for an entry that has a display name): lowered name, or the key verbatim,
occurring in the lowered document. -/
def matchesEntry (htmlLower : List Char) (e : List Char × Option (List Char)) : Bool :=
  match e.2 with
  | some n => containsSub (lowerStr n) htmlLower || containsSub e.1 htmlLower
  | none => false

/-- Loop body of `claimedDetectPlatform`. -/
def claimedGo (htmlLower : List Char) :
    List (List Char × Option (List Char)) → Option (List Char)
  | [] => none
  | (k, name) :: rest =>
    let nameHit := match name with
      | some n => containsSub (lowerStr n) htmlLower
      | none => false
    if nameHit || containsSub (lowerStr k) htmlLower then some k
    else claimedGo htmlLower rest

/-- Platform detection as the specification words it (refinement
comparison): the key, like the display name, is searched
case-insensitively — both sides lowered. -/
def claimedDetectPlatform (cfg : Config) (html : List Char) : Option (List Char) :=
  claimedGo (lowerStr html) cfg

/-! Helper lemmas. -/

theorem stripTokensF_of_not_hasTok (n : Nat) :
    ∀ s, hasTok s = false → stripTokensF n s = s := by
  induction n with
  | zero => intro s _; rfl
  | succ n ih =>
    intro s h
    match s with
    | [] => rfl
    | c :: cs =>
      simp only [hasTok, Bool.or_eq_false_iff] at h
      have htt : tokenTail (c :: cs) = none := by
        cases hcase : tokenTail (c :: cs) with
        | none => rfl
        | some r => rw [hcase] at h; simp at h
      simp [stripTokensF, htt, ih cs h.2]

/-! Claim C2.  The universal "the returned output contains no unresolved
placeholder token" part of the claim is false: the single left-to-right
cleanup pass can join the text surrounding a removed token into a new
token (template `\x7b\x7ba\x7d\x7b\x7bb\x7d\x7d\x7d` with an empty map
renders to `\x7b\x7ba\x7d\x7d`).  The rest of the claim holds. -/

/-- Claim C2 (counterexample): rendering the template
`\x7b\x7ba\x7d\x7b\x7bb\x7d\x7d\x7d` with an empty placeholder map returns
`\x7b\x7ba\x7d\x7d`, which still contains an unresolved
`\x7b\x7b...\x7d\x7d` token — refuting "the returned output contains no
unresolved placeholder token". -/
theorem claim_C2_render_counterexample :
    render_template ('\x7b' :: '\x7b' :: 'a' :: '\x7d' :: '\x7b' :: '\x7b' :: 'b' ::
        '\x7d' :: '\x7d' :: '\x7d' :: []) [] =
      ('\x7b' :: '\x7b' :: 'a' :: '\x7d' :: '\x7d' :: []) ∧
    hasTok (render_template ('\x7b' :: '\x7b' :: 'a' :: '\x7d' :: '\x7b' :: '\x7b' :: 'b' ::
        '\x7d' :: '\x7d' :: '\x7d' :: []) []) = true := by
  decide

/-- Claim C2 (amended): `render_template` first replaces, for each key in
order, every occurrence of its token, then makes one left-to-right
non-overlapping pass deleting remaining `\x7b\x7b...\x7d\x7d` tokens; when
the substituted template contains no such token it is returned unchanged
(in particular rendering `\x7b\x7btitle\x7d\x7d\x7b\x7bunknown\x7d\x7d`
with `title ↦ X` returns exactly `X`); but the deletion pass can join
surrounding text into a new token, so the output may still contain one. -/
theorem claim_C2_render_amended :
    render_template ('\x7b' :: '\x7b' :: 't' :: 'i' :: 't' :: 'l' :: 'e' :: '\x7d' :: '\x7d' ::
        '\x7b' :: '\x7b' :: 'u' :: 'n' :: 'k' :: 'n' :: 'o' :: 'w' :: 'n' :: '\x7d' :: '\x7d' :: [])
        [("title".toList, "X".toList)] = "X".toList ∧
    (∀ s, hasTok s = false → stripTokens s = s) ∧
    (∀ tmpl data, hasTok (substitute tmpl data) = false →
      render_template tmpl data = substitute tmpl data) := by
  refine ⟨by decide, fun s h => stripTokensF_of_not_hasTok s.length s h, ?_⟩
  intro tmpl data h
  exact stripTokensF_of_not_hasTok (substitute tmpl data).length (substitute tmpl data) h

/-- Claim C2 (witness for the amended theorem): a template without tokens is
rendered unchanged. -/
theorem claim_C2_render_amended_witness :
    render_template "plain text".toList [] = substitute "plain text".toList [] :=
  claim_C2_render_amended.2.2 "plain text".toList [] (by decide)

/-! Claim C3. -/

/-- Claim C3: `detect_page_type` evaluates its keyword cascade in fixed
order with first match winning; for every document whose lowered text
contains both "casino" and "review" it returns `casino-review` regardless
of the headings and of any other keywords; the remaining conjuncts exercise
rules (b), (c) and the default (d) concretely. -/
theorem claim_C3_detect_page_type :
    (∀ (s : List Char) (hs : List Heading),
      containsSub ('c' :: 'a' :: 's' :: 'i' :: 'n' :: 'o' :: []) (lowerStr s) = true →
      containsSub ('r' :: 'e' :: 'v' :: 'i' :: 'e' :: 'w' :: []) (lowerStr s) = true →
      detect_page_type s hs = "casino-review") ∧
    detect_page_type "casino review sportsbook crypto comparison".toList
      [⟨"h1", "best".toList, 0⟩] = "casino-review" ∧
    detect_page_type "sportsbook news".toList [] = "sportsbook-review" ∧
    detect_page_type "betting odds".toList [⟨"h1", "review".toList, 0⟩] = "sportsbook-review" ∧
    detect_page_type "crypto coins".toList [⟨"h2", "best list".toList, 0⟩] = "crypto-comparison" ∧
    detect_page_type "plain text".toList [] = "casino-review" := by
  refine ⟨?_, by decide, by decide, by decide, by decide, by decide⟩
  intro s hs h1 h2
  unfold detect_page_type
  simp [h1, h2]

/-- Claim C3 (witness): the first rule fires on a concrete mixed-case
document containing all the other rules' keywords. -/
theorem claim_C3_detect_page_type_witness :
    detect_page_type "CASINO sportsbook crypto Review".toList [] = "casino-review" :=
  claim_C3_detect_page_type.1 "CASINO sportsbook crypto Review".toList []
    (by decide) (by decide)

/-! Claim C4.  In `convert` the display name comes from
`platform_metadata.get(platform_key, {}).get('name', 'Platform')`: when a
key is detected but its metadata has no display name the fallback is the
generic "Platform", not a title-cased key; the title-cased fallback exists
only in `build_cta_button`. -/

/-- Claim C4 (counterexample): with platform key "foo" configured without a
display name, `convert`'s name resolution yields "Platform", not the
title-cased key "Foo" the claim asserts. -/
theorem claim_C4_platform_name_counterexample :
    resolvePlatformName [("foo".toList, none)] (some "foo".toList) = "Platform".toList ∧
    titleCase "foo".toList = "Foo".toList ∧
    "Platform".toList ≠ "Foo".toList := by
  decide

/-- Claim C4 (amended): `convert` resolves the platform display name from
the configured metadata's name when present; in every other case — no key
detected, key not configured, or key configured without a display name — it
falls back to the generic "Platform"; the title-cased form of the key is
used as fallback only by `build_cta_button`'s CTA name resolution. -/
theorem claim_C4_platform_name_amended :
    (∀ cfg : Config, resolvePlatformName cfg none = "Platform".toList) ∧
    (∀ (cfg : Config) (k n : List Char), lookupAssoc cfg k = some (some n) →
      resolvePlatformName cfg (some k) = n) ∧
    (∀ (cfg : Config) (k : List Char), lookupAssoc cfg k = some none →
      resolvePlatformName cfg (some k) = "Platform".toList) ∧
    (∀ (cfg : Config) (k : List Char), lookupAssoc cfg k = none →
      resolvePlatformName cfg (some k) = "Platform".toList) ∧
    (∀ (cfg : Config) (k n : List Char), lookupAssoc cfg k = some (some n) →
      ctaPlatformName cfg k = n) ∧
    (∀ (cfg : Config) (k : List Char), lookupAssoc cfg k = some none →
      ctaPlatformName cfg k = titleCase k) ∧
    (∀ (cfg : Config) (k : List Char), lookupAssoc cfg k = none →
      ctaPlatformName cfg k = titleCase k) := by
  refine ⟨fun _ => rfl, ?_, ?_, ?_, ?_, ?_, ?_⟩ <;>
    intro cfg k <;> first
      | (intro n h; simp [resolvePlatformName, ctaPlatformName, h])
      | (intro h; simp [resolvePlatformName, ctaPlatformName, h])

/-- Claim C4 (witness for the amended theorem): concrete lookups in a
two-platform configuration. -/
theorem claim_C4_platform_name_amended_witness :
    resolvePlatformName [("foo".toList, some "Foo Casino".toList)] (some "foo".toList)
      = "Foo Casino".toList ∧
    ctaPlatformName [("foo".toList, none)] "foo".toList = titleCase "foo".toList := by
  refine ⟨claim_C4_platform_name_amended.2.1 _ _ _ (by decide), ?_⟩
  exact claim_C4_platform_name_amended.2.2.2.2.2.1 _ _ (by decide)

/-! Claim C8. -/

/-- Claim C8: `extract_pros_cons` searches independently for a Pros label
followed (non-greedily) by a `<ul>` block and for a Cons label likewise;
each found side is the cleaned list of `<li>` captures of its block, and a
side whose search fails is empty; on the concrete input with a "Pros:"
label, a list of three items and no "Cons" section it returns 3 pros and 0
cons. -/
theorem claim_C8_extract_pros_cons :
    (∀ s, blockSearch ('p' :: 'r' :: 'o' :: 's' :: []) s = none →
      (extract_pros_cons s).1 = []) ∧
    (∀ s, blockSearch ('c' :: 'o' :: 'n' :: 's' :: []) s = none →
      (extract_pros_cons s).2 = []) ∧
    (∀ s cap, blockSearch ('p' :: 'r' :: 'o' :: 's' :: []) s = some cap →
      (extract_pros_cons s).1 = (findLis cap).map cleanText) ∧
    (∀ s cap, blockSearch ('c' :: 'o' :: 'n' :: 's' :: []) s = some cap →
      (extract_pros_cons s).2 = (findLis cap).map cleanText) ∧
    extract_pros_cons
        "<strong>Pros:</strong><ul><li>a</li><li>b</li><li>c</li></ul>".toList
      = (["a".toList, "b".toList, "c".toList], []) := by
  refine ⟨?_, ?_, ?_, ?_, by decide⟩ <;>
    first
      | (intro s h; simp [extract_pros_cons, h])
      | (intro s cap h; simp [extract_pros_cons, h])

/-- Claim C8 (witness): on a document with no list markup at all, both sides
are empty. -/
theorem claim_C8_extract_pros_cons_witness :
    (extract_pros_cons "no lists here".toList).1 = [] ∧
    (extract_pros_cons "no lists here".toList).2 = [] :=
  ⟨claim_C8_extract_pros_cons.1 _ (by decide),
   claim_C8_extract_pros_cons.2.1 _ (by decide)⟩

/-! Claim C1.  In this embedding every extraction operation and classifier
is a total Lean function over arbitrary character lists (the source's scans
cannot throw: every regex failure just yields no match), so totality holds
by construction; the theorem records the absence behaviour — when a pattern
has no match anywhere, the result is the empty/absent value — together with
the outputs on the empty document. -/

/-- Claim C1: each extractor returns its empty/absent result when its
pattern does not occur (stated through this embedding's own scanners), the
classifier always yields one of its three page types, platform detection
over an empty configuration yields no platform, and every operation yields
the empty/absent result on the empty document. -/
theorem claim_C1_extraction_total :
    (∀ s, findTagMatches ('h' :: '1' :: []) true s = [] →
      findTagMatches ('h' :: '2' :: []) true s = [] →
      findTagMatches ('h' :: '3' :: []) true s = [] → extract_headings s = []) ∧
    (∀ s, findTagMatches ('p' :: []) true s = [] → extract_paragraphs s = []) ∧
    (∀ s, findTagMatches ('t' :: 'a' :: 'b' :: 'l' :: 'e' :: []) true s = [] →
      extract_tables s = []) ∧
    (∀ s, blockSearch ('p' :: 'r' :: 'o' :: 's' :: []) s = none →
      blockSearch ('c' :: 'o' :: 'n' :: 's' :: []) s = none →
      extract_pros_cons s = ([], [])) ∧
    (∀ s, search ratingAt1 s = none → search ratingAt2 s = none →
      extract_rating s = none) ∧
    (∀ s hs, detect_page_type s hs = "casino-review" ∨
      detect_page_type s hs = "sportsbook-review" ∨
      detect_page_type s hs = "crypto-comparison") ∧
    (∀ s, detect_platform [] s = Except.ok none) ∧
    (extract_headings [] = [] ∧ extract_paragraphs [] = [] ∧ extract_tables [] = [] ∧
      extract_pros_cons [] = ([], []) ∧ extract_rating [] = none) := by
  refine ⟨?_, ?_, ?_, ?_, ?_, ?_, fun _ => rfl, by decide⟩
  · intro s h1 h2 h3
    simp [extract_headings, headingsOf, h1, h2, h3, sortByPos]
  · intro s h
    simp [extract_paragraphs, h]
  · intro s h
    simp [extract_tables, h]
  · intro s h1 h2
    simp [extract_pros_cons, h1, h2]
  · intro s h1 h2
    simp [extract_rating, h1, h2]
  · intro s hs
    simp only [detect_page_type]
    split_ifs <;> simp

/-- Claim C1 (witness): on a concrete pattern-free document every extractor
returns its empty/absent result. -/
theorem claim_C1_extraction_total_witness :
    extract_headings "plain words only".toList = [] ∧
    extract_paragraphs "plain words only".toList = [] ∧
    extract_tables "plain words only".toList = [] ∧
    extract_pros_cons "plain words only".toList = ([], []) ∧
    extract_rating "plain words only".toList = none :=
  ⟨claim_C1_extraction_total.1 _ (by decide) (by decide) (by decide),
   claim_C1_extraction_total.2.1 _ (by decide),
   claim_C1_extraction_total.2.2.1 _ (by decide),
   claim_C1_extraction_total.2.2.2.1 _ (by decide) (by decide),
   claim_C1_extraction_total.2.2.2.2.1 _ (by decide) (by decide)⟩

/-! Claim C7. -/

/-- Claim C7: every table returned by `extract_tables` has at least one row,
every kept row has at least one cell, and `columns` equals the cell count of
the first surviving row only; rows of differing lengths are kept unchanged
(concretely, a two-cell first row followed by a one-cell row yields
`columns = 2` with both rows intact). -/
theorem claim_C7_extract_tables_invariants :
    (∀ (html : List Char) (t : Table), t ∈ extract_tables html →
      t.rows ≠ [] ∧ (∀ r ∈ t.rows, r ≠ []) ∧ t.columns = (t.rows.headD []).length) ∧
    extract_tables "<table><tr><td>a</td><td>b</td></tr><tr><td>c</td></tr></table>".toList
      = [⟨[["a".toList, "b".toList], ["c".toList]], 2, 0⟩] := by
  refine ⟨?_, by decide⟩
  intro html t ht
  unfold extract_tables at ht
  rw [List.mem_filterMap] at ht
  obtain ⟨m, _, heq⟩ := ht
  by_cases hrows : tableRowsOf m.2.1 = []
  · rw [if_pos hrows] at heq
    exact absurd heq (by simp)
  · rw [if_neg hrows] at heq
    obtain rfl : Table.mk _ _ m.1 = t := Option.some.inj heq
    refine ⟨hrows, ?_, rfl⟩
    intro r hr
    unfold tableRowsOf at hr
    rw [List.mem_filterMap] at hr
    obtain ⟨rm, _, hreq⟩ := hr
    by_cases hcells : cellsOf rm.2.2 = []
    · rw [if_pos hcells] at hreq
      exact absurd hreq (by simp)
    · rw [if_neg hcells] at hreq
      obtain rfl : _ = r := Option.some.inj hreq
      exact hcells

/-- Claim C7 (witness): the invariants hold of the concrete unequal-rows
table. -/
theorem claim_C7_extract_tables_invariants_witness :
    (⟨[["a".toList, "b".toList], ["c".toList]], 2, 0⟩ : Table).rows ≠ [] ∧
    (⟨[["a".toList, "b".toList], ["c".toList]], 2, 0⟩ : Table).columns =
      ((⟨[["a".toList, "b".toList], ["c".toList]], 2, 0⟩ : Table).rows.headD []).length := by
  have h := claim_C7_extract_tables_invariants.1
    "<table><tr><td>a</td><td>b</td></tr><tr><td>c</td></tr></table>".toList
    ⟨[["a".toList, "b".toList], ["c".toList]], 2, 0⟩
    (by rw [claim_C7_extract_tables_invariants.2]; exact List.mem_singleton.mpr rfl)
  exact ⟨h.1, h.2.2⟩

/-! Claim C5. -/

theorem buildTableRows_mem :
    ∀ (rows : List (List (List Char))) (c0 c1 : List Char) (rest : List (List Char)),
      (c0 :: c1 :: rest) ∈ rows →
      mkRowHtml c0 c1 (isHighlighted c1) ∈ buildTableRows rows := by
  intro rows
  induction rows with
  | nil => intro _ _ _ h; cases h
  | cons row rows ih =>
    intro c0 c1 rest h
    rcases List.mem_cons.mp h with heq | hmem
    · subst heq
      simp [buildTableRows]
    · rcases row with _ | ⟨a, _ | ⟨b, tl⟩⟩
      · simpa [buildTableRows] using ih _ _ _ hmem
      · simpa [buildTableRows] using ih _ _ _ hmem
      · simp only [buildTableRows]
        exact List.mem_cons_of_mem _ (ih _ _ _ hmem)

/-- Claim C5: every table row with at least two cells is emitted, its second
cell carrying the highlight class exactly when the source condition holds
(`isHighlighted` is literally `'<strong>' in cell or 'free' in
cell.lower()`, and the highlighted and unhighlighted renderings differ);
within the pipeline, the extracted first table of the concrete document has
the cell "100% Free" and `build_table_html` renders it highlighted. -/
theorem claim_C5_table_highlight :
    (∀ (rows : List (List (List Char))) (c0 c1 : List Char) (rest : List (List Char)),
      (c0 :: c1 :: rest) ∈ rows →
      mkRowHtml c0 c1 (isHighlighted c1) ∈ buildTableRows rows) ∧
    (∀ c1, isHighlighted c1 =
      (containsSub "<strong>".toList c1 || containsSub "free".toList (lowerStr c1))) ∧
    (∀ c0 c1, mkRowHtml c0 c1 true ≠ mkRowHtml c0 c1 false) ∧
    extract_tables "<table><tr><td>Bonus</td><td>100% Free</td></tr></table>".toList
      = [⟨[["Bonus".toList, "100% Free".toList]], 2, 0⟩] ∧
    isHighlighted "100% Free".toList = true ∧
    build_table_html (placeholder ('t' :: 'a' :: 'b' :: 'l' :: 'e' :: '_' :: 'r' :: 'o' ::
        'w' :: 's' :: []))
      ⟨[["Bonus".toList, "100% Free".toList]], 2, 0⟩
      = mkRowHtml "Bonus".toList "100% Free".toList true := by
  refine ⟨buildTableRows_mem, fun _ => rfl, ?_, by decide, by decide, by decide⟩
  intro c0 c1 h
  unfold mkRowHtml at h
  have h1 := List.append_cancel_right h
  have h2 := List.append_cancel_right h1
  have h3 := List.append_cancel_left h2
  simp at h3

/-- Claim C5 (witness): the emitted highlighted row for the concrete table
is among the built rows. -/
theorem claim_C5_table_highlight_witness :
    mkRowHtml "Bonus".toList "100% Free".toList
        (isHighlighted "100% Free".toList)
      ∈ buildTableRows [["Bonus".toList, "100% Free".toList]] :=
  claim_C5_table_highlight.1 _ "Bonus".toList "100% Free".toList [] (by decide)

/-! Claim C9.  The document and each display name are lowered before the
substring test, but the key is tested verbatim against the lowered document
(`platform_key in html_lower` without `.lower()` on the key), so a key
containing an upper-case letter is not matched case-insensitively. -/

theorem detectGo_eq_find (hl : List Char) :
    ∀ cfg : List (List Char × Option (List Char)),
      (∀ e ∈ cfg, e.2.isSome = true) →
      detectGo hl cfg = Except.ok ((cfg.find? (matchesEntry hl)).map Prod.fst) := by
  intro cfg
  induction cfg with
  | nil => intro _; rfl
  | cons e rest ih =>
    intro h
    obtain ⟨k, name⟩ := e
    cases name with
    | none => exact absurd (h _ (List.mem_cons_self _ _)) (by simp)
    | some n =>
      have hrest := fun x hx => h x (List.mem_cons_of_mem _ hx)
      cases hc : (containsSub (lowerStr n) hl || containsSub k hl) with
      | true =>
        rw [List.find?_cons_of_pos _ (by simp [matchesEntry, hc])]
        simp [detectGo, hc]
      | false =>
        rw [List.find?_cons_of_neg _ (by simp [matchesEntry, hc])]
        simpa [detectGo, hc] using ih hrest

/-- Claim C9 (counterexample): with the single configured platform key
"Abc" (display name "zzz") and the document "Abc", the key does occur
case-insensitively in the document, yet `detect_platform` returns no
platform — refuting the claim that the key is searched case-insensitively
(the specification-worded version returns the key). -/
theorem claim_C9_detect_platform_counterexample :
    detect_platform [("Abc".toList, some "zzz".toList)] "Abc".toList = Except.ok none ∧
    claimedDetectPlatform [("Abc".toList, some "zzz".toList)] "Abc".toList
      = some "Abc".toList ∧
    containsSub (lowerStr "Abc".toList) (lowerStr "Abc".toList) = true := by
  exact ⟨rfl, rfl, by decide⟩

/-- Claim C9 (amended): `detect_platform` scans the configured platforms in
insertion order and returns the first key whose lowered display name occurs
in the lowered document or whose key occurs verbatim in the lowered
document (so a key matches case-insensitively only when it is written in
lower case); it returns no platform when no entry matches.  Stated through
`List.find?` (first match wins) for any configuration whose entries all
carry a display name. -/
theorem claim_C9_detect_platform_amended :
    (∀ (cfg : Config) (s : List Char), (∀ e ∈ cfg, e.2.isSome = true) →
      detect_platform cfg s =
        Except.ok ((cfg.find? (matchesEntry (lowerStr s))).map Prod.fst)) ∧
    (∀ (cfg : Config) (s : List Char),
      cfg.find? (matchesEntry (lowerStr s)) = none ↔
        ∀ e ∈ cfg, matchesEntry (lowerStr s) e = false) := by
  refine ⟨fun cfg s h => detectGo_eq_find (lowerStr s) cfg h, ?_⟩
  intro cfg s
  rw [List.find?_eq_none]
  simp

/-- Claim C9 (witness for the amended theorem): a concrete two-platform
configuration where the second entry's name matches; the first matching
entry is returned. -/
theorem claim_C9_detect_platform_amended_witness :
    detect_platform [("abc".toList, some "Zed".toList), ("xy".toList, some "Q".toList)]
      "visit ABC now".toList = Except.ok (some "abc".toList) := by
  rw [claim_C9_detect_platform_amended.1 _ _ (by decide)]
  rfl

/-! Claim C6.  The first pattern is indeed tried first and its first match
is returned, but the claim's consequence overreaches: an input containing
both "7.5/10" and "4 out of 5" can also contain an earlier match of the
`/` pattern, in which case the returned rating is that earlier match, not
7.5/10. -/

theorem ratingAt1_at_75 (v : List Char) :
    ratingAt1 ('7' :: '.' :: '5' :: '/' :: '1' :: '0' :: v)
      = some ⟨"7.5".toList, '1' :: '0' :: v.takeWhile isAsciiDigit⟩ := rfl

theorem search_append_isSome {α : Type} (f : List Char → Option α) :
    ∀ (u w : List Char) (r : α), search f w = some r →
      ∃ q, search f (u ++ w) = some q := by
  intro u
  induction u with
  | nil => intro w r h; exact ⟨r, h⟩
  | cons a u ih =>
    intro w r h
    obtain ⟨q, hq⟩ := ih w r h
    cases hf : f (a :: (u ++ w)) with
    | some p => exact ⟨p, by simp [search, hf]⟩
    | none => exact ⟨q, by simp [search, hf, hq]⟩

/-- Claim C6 (counterexample): the input "0/1 7.5/10 4 out of 5" contains
both "7.5/10" and "4 out of 5", yet `extract_rating` returns the earlier
`/`-pattern match 0/1, not 7.5/10 — refuting "for every input containing
both, the returned rating is 7.5 out of 10". -/
theorem claim_C6_extract_rating_counterexample :
    extract_rating "0/1 7.5/10 4 out of 5".toList = some ⟨"0".toList, "1".toList⟩ ∧
    containsSub "7.5/10".toList "0/1 7.5/10 4 out of 5".toList = true ∧
    containsSub "4 out of 5".toList "0/1 7.5/10 4 out of 5".toList = true ∧
    (⟨"0".toList, "1".toList⟩ : Rating) ≠ ⟨"7.5".toList, "10".toList⟩ := by
  decide

/-- Claim C6 (amended): `extract_rating` tries the `/` pattern first and the
`out of` pattern second, each searched anywhere in the document, and stops
at the first pattern that succeeds; hence on every input containing
"7.5/10" the result is the `/` pattern's leftmost match (which equals
7.5/10 when no `/`-match starts earlier, as in the concrete spec example
with both substrings present). -/
theorem claim_C6_extract_rating_amended :
    (∀ u v, ∃ r,
      search ratingAt1 (u ++ ('7' :: '.' :: '5' :: '/' :: '1' :: '0' :: v)) = some r ∧
      extract_rating (u ++ ('7' :: '.' :: '5' :: '/' :: '1' :: '0' :: v)) = some r) ∧
    extract_rating "rated 7.5/10 and 4 out of 5".toList
      = some ⟨"7.5".toList, "10".toList⟩ := by
  refine ⟨?_, by decide⟩
  intro u v
  have hcore : search ratingAt1 ('7' :: '.' :: '5' :: '/' :: '1' :: '0' :: v)
      = some ⟨"7.5".toList, '1' :: '0' :: v.takeWhile isAsciiDigit⟩ := by
    simp [search, ratingAt1_at_75 v]
  obtain ⟨q, hq⟩ := search_append_isSome ratingAt1 u _ _ hcore
  exact ⟨q, hq, by simp [extract_rating, hq]⟩

/-- Claim C6 (witness for the amended theorem): a concrete instantiation
with text on both sides of "7.5/10". -/
theorem claim_C6_extract_rating_amended_witness :
    ∃ r, search ratingAt1 ("score ".toList ++
        ('7' :: '.' :: '5' :: '/' :: '1' :: '0' :: " stars".toList)) = some r ∧
      extract_rating ("score ".toList ++
        ('7' :: '.' :: '5' :: '/' :: '1' :: '0' :: " stars".toList)) = some r :=
  claim_C6_extract_rating_amended.1 "score ".toList " stars".toList

/-! Claim C10. -/

theorem lower_pre (a t : Char) (h : asciiLower a = t) : a = t ∨ a = asciiUpper t := by
  by_cases h1 : a = 'A'
  · subst h1
    rw [show asciiLower 'A' = 'a' from rfl] at h
    subst h
    decide
  by_cases h2 : a = 'B'
  · subst h2
    rw [show asciiLower 'B' = 'b' from rfl] at h
    subst h
    decide
  by_cases h3 : a = 'C'
  · subst h3
    rw [show asciiLower 'C' = 'c' from rfl] at h
    subst h
    decide
  by_cases h4 : a = 'D'
  · subst h4
    rw [show asciiLower 'D' = 'd' from rfl] at h
    subst h
    decide
  by_cases h5 : a = 'E'
  · subst h5
    rw [show asciiLower 'E' = 'e' from rfl] at h
    subst h
    decide
  by_cases h6 : a = 'F'
  · subst h6
    rw [show asciiLower 'F' = 'f' from rfl] at h
    subst h
    decide
  by_cases h7 : a = 'G'
  · subst h7
    rw [show asciiLower 'G' = 'g' from rfl] at h
    subst h
    decide
  by_cases h8 : a = 'H'
  · subst h8
    rw [show asciiLower 'H' = 'h' from rfl] at h
    subst h
    decide
  by_cases h9 : a = 'I'
  · subst h9
    rw [show asciiLower 'I' = 'i' from rfl] at h
    subst h
    decide
  by_cases h10 : a = 'J'
  · subst h10
    rw [show asciiLower 'J' = 'j' from rfl] at h
    subst h
    decide
  by_cases h11 : a = 'K'
  · subst h11
    rw [show asciiLower 'K' = 'k' from rfl] at h
    subst h
    decide
  by_cases h12 : a = 'L'
  · subst h12
    rw [show asciiLower 'L' = 'l' from rfl] at h
    subst h
    decide
  by_cases h13 : a = 'M'
  · subst h13
    rw [show asciiLower 'M' = 'm' from rfl] at h
    subst h
    decide
  by_cases h14 : a = 'N'
  · subst h14
    rw [show asciiLower 'N' = 'n' from rfl] at h
    subst h
    decide
  by_cases h15 : a = 'O'
  · subst h15
    rw [show asciiLower 'O' = 'o' from rfl] at h
    subst h
    decide
  by_cases h16 : a = 'P'
  · subst h16
    rw [show asciiLower 'P' = 'p' from rfl] at h
    subst h
    decide
  by_cases h17 : a = 'Q'
  · subst h17
    rw [show asciiLower 'Q' = 'q' from rfl] at h
    subst h
    decide
  by_cases h18 : a = 'R'
  · subst h18
    rw [show asciiLower 'R' = 'r' from rfl] at h
    subst h
    decide
  by_cases h19 : a = 'S'
  · subst h19
    rw [show asciiLower 'S' = 's' from rfl] at h
    subst h
    decide
  by_cases h20 : a = 'T'
  · subst h20
    rw [show asciiLower 'T' = 't' from rfl] at h
    subst h
    decide
  by_cases h21 : a = 'U'
  · subst h21
    rw [show asciiLower 'U' = 'u' from rfl] at h
    subst h
    decide
  by_cases h22 : a = 'V'
  · subst h22
    rw [show asciiLower 'V' = 'v' from rfl] at h
    subst h
    decide
  by_cases h23 : a = 'W'
  · subst h23
    rw [show asciiLower 'W' = 'w' from rfl] at h
    subst h
    decide
  by_cases h24 : a = 'X'
  · subst h24
    rw [show asciiLower 'X' = 'x' from rfl] at h
    subst h
    decide
  by_cases h25 : a = 'Y'
  · subst h25
    rw [show asciiLower 'Y' = 'y' from rfl] at h
    subst h
    decide
  by_cases h26 : a = 'Z'
  · subst h26
    rw [show asciiLower 'Z' = 'z' from rfl] at h
    subst h
    decide
  unfold asciiLower at h
  rw [if_neg h1, if_neg h2, if_neg h3, if_neg h4, if_neg h5, if_neg h6, if_neg h7, if_neg h8, if_neg h9, if_neg h10, if_neg h11, if_neg h12, if_neg h13, if_neg h14, if_neg h15, if_neg h16, if_neg h17, if_neg h18, if_neg h19, if_neg h20, if_neg h21, if_neg h22, if_neg h23, if_neg h24, if_neg h25, if_neg h26] at h
  exact Or.inl h

/-- Claim C10: the second rating pattern is matched case-sensitively — for
inputs of the form `4 (casing of "out of") 5`, which contain no `/`-pattern
occurrence, every casing other than lower-case "out of" yields no rating,
while "4 out of 5" yields rating 4 of 5; and whenever the `/` pattern has
no match anywhere, `extract_rating` falls through to the second pattern's
search. -/
theorem claim_C10_rating_case_sensitivity :
    (∀ s, search ratingAt1 s = none → extract_rating s = search ratingAt2 s) ∧
    (∀ w, lowerStr w = ('o' :: 'u' :: 't' :: ' ' :: 'o' :: 'f' :: []) →
      w ≠ ('o' :: 'u' :: 't' :: ' ' :: 'o' :: 'f' :: []) →
      extract_rating ('4' :: ' ' :: (w ++ (' ' :: '5' :: []))) = none) ∧
    extract_rating "4 out of 5".toList = some ⟨"4".toList, "5".toList⟩ ∧
    extract_rating "4 OUT OF 5".toList = none := by
  refine ⟨?_, ?_, by decide, by decide⟩
  · intro s h
    simp [extract_rating, h]
  · intro w hlow hne
    rcases w with _ | ⟨a, _ | ⟨b, _ | ⟨c, _ | ⟨d, _ | ⟨e, _ | ⟨f, rest⟩⟩⟩⟩⟩⟩ <;>
      simp [lowerStr] at hlow
    obtain ⟨ha, hb, hc, hd, he, hf, hrest⟩ := hlow
    subst hrest
    rcases lower_pre a _ ha with rfl | rfl <;>
      rcases lower_pre b _ hb with rfl | rfl <;>
        rcases lower_pre c _ hc with rfl | rfl <;>
          rcases lower_pre d _ hd with rfl | rfl <;>
            rcases lower_pre e _ he with rfl | rfl <;>
              rcases lower_pre f _ hf with rfl | rfl <;>
                first
                  | exact absurd rfl hne
                  | decide

/-- Claim C10 (witness): the all-upper-case casing is rejected, through the
general conjunct. -/
theorem claim_C10_rating_case_sensitivity_witness :
    extract_rating ('4' :: ' ' :: ("OUT OF".toList ++ (' ' :: '5' :: []))) = none :=
  claim_C10_rating_case_sensitivity.2.1 "OUT OF".toList (by decide) (by decide)

end HtmlConv

